import Mathlib

/-!
Shallow embedding of `robobrowser/browser.py` and `robobrowser/exceptions.py`
(torico-tokyo/robobrowserdash): the history stack of browser states, the
state-update protocol run on every navigation, cursor traversal, cache
configuration checking, meta-refresh handling, URL resolution for form
submission, and the explicit re-parse operations.  External collaborators
(the HTTP client, BeautifulSoup document queries, the form component, and the
standard library URL-resolution routines) are modelled at their interface
boundary, as the specification prescribes.
-/

set_option maxHeartbeats 1000000

namespace RoboDash

/-- Distinct failures of the underlying HTTP transport (dispatch failures of
`session.request`); kept as a separate type from the browser's own errors. -/
inductive TransportErr where
  | timeout
  | connectionError
  | httpError (code : Nat)
deriving DecidableEq

/-- Errors raised by `browser.py`.  The source raises `RoboError` with a
distinguishing message at each site (plus Python builtins); each raise site is
one constructor: `noState` for `RoboError('No state')`, `indexOutOfRange` for
`RoboError('Index out of range')`, `notTrackingHistory` for
`RoboError('Not tracking history')`, `missingHref` for the missing `href`
error in `follow_link`, `keyError` for Python `KeyError` from a missing tag
attribute, `configMaxAge`/`configMaxCount` for the two `ValueError`s in
`__init__`, and `transportFail` for a propagated dispatch failure. -/
inductive Err where
  | noState
  | indexOutOfRange
  | notTrackingHistory
  | missingHref
  | keyError (attr : String)
  | configMaxAge
  | configMaxCount
  | transportFail (t : TransportErr)
deriving DecidableEq

/-- A meta tag as returned by the document-query collaborator: its `content`
attribute is either absent or holds a string. -/
structure MetaTag where
  contentAttr : Option String
deriving DecidableEq

/-- A parsed document, modelled at the interface boundary of the
document-query collaborator: the only query the core issues against it for
navigation is `find('meta', attrs={'http-equiv': refresh})`, whose result
(found tag or not-found) is the `findMetaRefresh` field. -/
structure Doc where
  findMetaRefresh : Option MetaTag
deriving DecidableEq

/-- An HTTP response at the interface boundary: its resolved URL and body. -/
structure Response where
  url : String
  content : String
deriving DecidableEq

/-- `RoboState.__init__`: wraps a response; `url` is taken from the response
(coerced to a string), and the lazily parsed document starts out uncomputed
(`none`). -/
structure RoboState where
  response : Response
  url : String
  parsed : Option Doc
deriving DecidableEq

/-- State construction as performed by `_update_state`:
`RoboState(self, response)`. -/
def mkState (resp : Response) : RoboState :=
  { response := resp, url := resp.url, parsed := none }

/-- The `history` constructor argument: `True`, a falsy value, or an integer
count (a falsy integer `0` behaves like the falsy case). -/
inductive HistoryParam where
  | htrue
  | hfalse
  | hint (n : Nat)
deriving DecidableEq

/-- Python truthiness of the `history` argument, as tested by
`if not self.history` in `_traverse`. -/
def historyTruthy : HistoryParam → Bool
  | .htrue => true
  | .hfalse => false
  | .hint n => n != 0

/-- The `_maxlen` computed in `__init__`: `None` if `history is True`,
`1` if `history` is falsy, else the integer value. -/
def initMaxlen : HistoryParam → Option Nat
  | .htrue => none
  | .hfalse => some 1
  | .hint n => if n = 0 then some 1 else some n

/-- The browser fields relevant to the session and navigation state engine:
the truthiness of the stored `history` argument, `_maxlen`, `_states` and
`_cursor`.  The cursor is an integer because the source initialises it
to `-1`. -/
structure Browser where
  history : Bool
  maxlen : Option Nat
  states : List RoboState
  cursor : Int
deriving DecidableEq

/-- History-related initialisation in `RoboBrowser.__init__`:
`_states = []`, `_cursor = -1`, and `_maxlen` per the history argument. -/
def initBrowser (p : HistoryParam) : Browser :=
  { history := historyTruthy p
    maxlen := initMaxlen p
    states := []
    cursor := -1 }

/-- Python list slicing `ls[:k]` for an integer bound `k`: a nonnegative
bound takes a prefix, a negative bound counts from the end (clamped at 0). -/
def pyTakeTo (ls : List α) (k : Int) : List α :=
  if 0 ≤ k then ls.take k.toNat else ls.take (ls.length - (-k).toNat)

/-- Python indexing `ls[i]` resolved to a list position: nonnegative indices
are used directly, negative indices count from the end; out-of-bounds gives
`none` (Python `IndexError`). -/
def pyIdxNat (len : Nat) (i : Int) : Option Nat :=
  if 0 ≤ i then (if i < (len : Int) then some i.toNat else none)
  else (if -i ≤ (len : Int) then some (len - (-i).toNat) else none)

/-- Python `ls[i]` (element read). -/
def pyIndex (ls : List α) (i : Int) : Option α :=
  (pyIdxNat ls.length i).bind ls.get?

/-- Python `ls[i] = a` style replacement of one position (used to model
attribute assignment on the state object stored at a position). -/
def pySetIdx (ls : List α) (i : Int) (a : α) : List α :=
  match pyIdxNat ls.length i with
  | none => ls
  | some n => ls.set n a

/-- `RoboBrowser._update_state`: clear trailing states with
`_states = _states[:_cursor + 1]`, append the new state, increment the
cursor, and, when `_maxlen` is truthy, drop `decrement` leading states and
decrement the cursor whenever `len(_states) - _maxlen > 0`. -/
def update_state (b : Browser) (resp : Response) : Browser :=
  match b.maxlen with
  | none =>
    { b with states := pyTakeTo b.states (b.cursor + 1) ++ [mkState resp],
             cursor := b.cursor + 1 }
  | some m =>
    if m = 0 then
      { b with states := pyTakeTo b.states (b.cursor + 1) ++ [mkState resp],
               cursor := b.cursor + 1 }
    else
      if 0 < ((pyTakeTo b.states (b.cursor + 1) ++ [mkState resp]).length : Int) - (m : Int)
      then
        { b with
          states := (pyTakeTo b.states (b.cursor + 1) ++ [mkState resp]).drop
            (((pyTakeTo b.states (b.cursor + 1) ++ [mkState resp]).length : Int)
              - (m : Int)).toNat,
          cursor := b.cursor + 1
            - (((pyTakeTo b.states (b.cursor + 1) ++ [mkState resp]).length : Int)
                - (m : Int)) }
      else
        { b with states := pyTakeTo b.states (b.cursor + 1) ++ [mkState resp],
                 cursor := b.cursor + 1 }

/-- `RoboBrowser._traverse`: raise `RoboError('Not tracking history')` when
the stored history argument is falsy; compute `cursor + n`; raise
`RoboError('Index out of range')` when the result falls outside
`[0, len(_states))`; otherwise commit the new cursor. -/
def traverse (b : Browser) (n : Int) : Except Err Browser :=
  if b.history = false then .error .notTrackingHistory
  else if b.cursor + n ≥ (b.states.length : Int) ∨ b.cursor + n < 0 then
    .error .indexOutOfRange
  else .ok { b with cursor := b.cursor + n }

/-- `RoboBrowser.back`: `_traverse(-1 * n)`. -/
def back (b : Browser) (n : Int) : Except Err Browser :=
  traverse b (-1 * n)

/-- `RoboBrowser.forward`: `_traverse(n)`. -/
def forward (b : Browser) (n : Int) : Except Err Browser :=
  traverse b n

/-- The `state` property: raise `RoboError('No state')` when the cursor is
`-1`; return `_states[_cursor]`, turning a Python `IndexError` into
`RoboError('Index out of range')`. -/
def getState (b : Browser) : Except Err RoboState :=
  if b.cursor = -1 then .error .noState
  else
    match pyIndex b.states b.cursor with
    | none => .error .indexOutOfRange
    | some st => .ok st

/-- One atomic transition of the navigation state engine: a successful
navigation (a push through `_update_state`) or a successful cursor
traversal. -/
inductive Step : Browser → Browser → Prop where
  | push (b : Browser) (resp : Response) : Step b (update_state b resp)
  | move (b b' : Browser) (n : Int) (h : traverse b n = Except.ok b') : Step b b'

/-- Reachability of one browser state from another by any sequence of pushes
and successful cursor moves. -/
def ReachableFrom (b0 b : Browser) : Prop :=
  Relation.ReflTransGen Step b0 b

/-- The history-stack invariant: the cursor is a valid index (or `-1` exactly
on the empty sequence), and when a maximum length is configured the sequence
respects it (and the configured bound is positive, as every constructor
argument produces). -/
def browserInv (b : Browser) : Prop :=
  ((b.states = [] ∧ b.cursor = -1) ∨ (0 ≤ b.cursor ∧ b.cursor < (b.states.length : Int))) ∧
  (match b.maxlen with
   | none => True
   | some m => b.states.length ≤ m ∧ 1 ≤ m)

instance : DecidablePred browserInv := by
  intro b
  unfold browserInv
  exact match b.maxlen with
  | none => instDecidableAnd
  | some _ => instDecidableAnd

instance instDecEqExcept {ε α : Type} [DecidableEq ε] [DecidableEq α] :
    DecidableEq (Except ε α) := fun
  | .error e, .error f =>
    if h : e = f then .isTrue (by rw [h])
    else .isFalse (by intro hh; cases hh; exact h rfl)
  | .error _, .ok _ => .isFalse (by intro h; cases h)
  | .ok _, .error _ => .isFalse (by intro h; cases h)
  | .ok a, .ok b =>
    if h : a = b then .isTrue (by rw [h])
    else .isFalse (by intro hh; cases hh; exact h rfl)

example : update_state (initBrowser .htrue) ⟨"http://a/", "x"⟩ =
    { history := true, maxlen := none,
      states := [mkState ⟨"http://a/", "x"⟩], cursor := 0 } := by
  decide

example :
    (update_state (update_state (initBrowser (.hint 1)) ⟨"http://a/", "x"⟩)
      ⟨"http://b/", "y"⟩).states = [mkState ⟨"http://b/", "y"⟩] := by
  decide

example : traverse (initBrowser .hfalse) 0 = .error .notTrackingHistory := by
  decide

theorem update_state_history (b : Browser) (resp : Response) :
    (update_state b resp).history = b.history := by
  unfold update_state
  split
  · rfl
  · split
    · rfl
    · split
      · rfl
      · rfl

theorem update_state_maxlen (b : Browser) (resp : Response) :
    (update_state b resp).maxlen = b.maxlen := by
  unfold update_state
  split
  · rfl
  · split
    · rfl
    · split
      · rfl
      · rfl

theorem traverse_ok_elim (b b' : Browser) (n : Int) (h : traverse b n = Except.ok b') :
    b.history = true ∧ 0 ≤ b.cursor + n ∧ b.cursor + n < (b.states.length : Int) ∧
    b' = { b with cursor := b.cursor + n } := by
  unfold traverse at h
  split at h
  · cases h
  · next hh =>
    split at h
    · cases h
    · next hrange =>
      cases h
      push_neg at hrange
      refine ⟨by revert hh; cases b.history <;> simp, by omega, by omega, rfl⟩

/-- Cursor bounds packaged for arithmetic: every invariant-satisfying browser
has `-1 ≤ cursor < length`, and the truncation prefix has length
`cursor + 1`. -/
theorem inv_take_length (b : Browser) (h : browserInv b) :
    0 ≤ b.cursor + 1 ∧ b.cursor + 1 ≤ (b.states.length : Int) ∧
    ((b.states.take (b.cursor + 1).toNat).length : Int) = b.cursor + 1 ∧
    pyTakeTo b.states (b.cursor + 1) = b.states.take (b.cursor + 1).toNat := by
  obtain ⟨hc, -⟩ := h
  have h1 : 0 ≤ b.cursor + 1 := by rcases hc with ⟨-, h2⟩ | ⟨h1, -⟩ <;> omega
  have h2 : b.cursor + 1 ≤ (b.states.length : Int) := by
    rcases hc with ⟨he, h2⟩ | ⟨h1, h2⟩
    · rw [he, h2]; simp
    · omega
  refine ⟨h1, h2, ?_, by simp [pyTakeTo, h1]⟩
  rw [List.length_take]
  omega

/-- Full case description of `_update_state` on an invariant-satisfying
browser: trailing states are discarded and the new state appended; without a
configured bound (or when the bound is not exceeded) the cursor becomes the
new last index; otherwise leading states are evicted down to the bound and
the cursor is decremented by the eviction count. -/
theorem update_state_cases (b : Browser) (resp : Response) (h : browserInv b) :
    (∀ _ : b.maxlen = none,
      (update_state b resp).states
        = b.states.take (b.cursor + 1).toNat ++ [mkState resp] ∧
      (update_state b resp).cursor = b.cursor + 1) ∧
    (∀ m, b.maxlen = some m →
      ((b.states.take (b.cursor + 1).toNat ++ [mkState resp]).length ≤ m →
        (update_state b resp).states
          = b.states.take (b.cursor + 1).toNat ++ [mkState resp] ∧
        (update_state b resp).cursor = b.cursor + 1) ∧
      (m < (b.states.take (b.cursor + 1).toNat ++ [mkState resp]).length →
        (update_state b resp).states
          = (b.states.take (b.cursor + 1).toNat ++ [mkState resp]).drop
              ((b.states.take (b.cursor + 1).toNat ++ [mkState resp]).length - m) ∧
        (update_state b resp).cursor
          = b.cursor + 1
            - (((b.states.take (b.cursor + 1).toNat ++ [mkState resp]).length : Int)
                - (m : Int)))) := by
  obtain ⟨h1, h2, h3, h4⟩ := inv_take_length b h
  obtain ⟨-, hm⟩ := h
  have hlen2 : (b.states.take (b.cursor + 1).toNat ++ [mkState resp]).length
      = (b.states.take (b.cursor + 1).toNat).length + 1 := by
    simp
  constructor
  · intro hmx
    unfold update_state
    rw [hmx, h4]
    exact ⟨rfl, rfl⟩
  · intro m hmx
    rw [hmx] at hm
    have hm1 : 1 ≤ m := hm.2
    have hne : ¬ m = 0 := by omega
    constructor
    · intro hle
      have hdec : ¬ (0 : Int) <
          (((b.states.take (b.cursor + 1).toNat ++ [mkState resp]).length : Int)
            - (m : Int)) := by
        omega
      unfold update_state
      rw [hmx, h4]
      dsimp only
      rw [if_neg hne, if_neg hdec]
      exact ⟨rfl, rfl⟩
    · intro hlt
      have hdec : (0 : Int) <
          (((b.states.take (b.cursor + 1).toNat ++ [mkState resp]).length : Int)
            - (m : Int)) := by
        omega
      unfold update_state
      rw [hmx, h4]
      dsimp only
      rw [if_neg hne, if_pos hdec]
      refine ⟨?_, rfl⟩
      have htn : (((b.states.take (b.cursor + 1).toNat ++ [mkState resp]).length : Int)
          - (m : Int)).toNat
          = (b.states.take (b.cursor + 1).toNat ++ [mkState resp]).length - m := by
        omega
      rw [htn]

/-- `_update_state` preserves the history-stack invariant. -/
theorem update_state_inv (b : Browser) (resp : Response) (h : browserInv b) :
    browserInv (update_state b resp) := by
  obtain ⟨hc1, hc2, hc3, -⟩ := inv_take_length b h
  obtain ⟨spec1, spec2⟩ := update_state_cases b resp h
  obtain ⟨-, hm⟩ := h
  have hlen2 : (b.states.take (b.cursor + 1).toNat ++ [mkState resp]).length
      = (b.states.take (b.cursor + 1).toNat).length + 1 := by
    simp
  have hlenapp :
      ((b.states.take (b.cursor + 1).toNat ++ [mkState resp]).length : Int)
        = b.cursor + 2 := by
    omega
  constructor
  · cases hmx : b.maxlen with
    | none =>
      obtain ⟨hs, hc⟩ := spec1 hmx
      right
      rw [hs, hc, hlenapp]
      omega
    | some m =>
      rw [hmx] at hm
      obtain ⟨hb1, hb2⟩ := spec2 m hmx
      by_cases hle : (b.states.take (b.cursor + 1).toNat ++ [mkState resp]).length ≤ m
      · obtain ⟨hs, hc⟩ := hb1 hle
        right
        rw [hs, hc, hlenapp]
        omega
      · obtain ⟨hs, hc⟩ := hb2 (by omega)
        have hlen2 : (b.states.take (b.cursor + 1).toNat ++ [mkState resp]).length
            = (b.states.take (b.cursor + 1).toNat).length + 1 := by
          simp
        right
        rw [hs, hc]
        rw [List.length_drop]
        constructor
        · omega
        · omega
  · rw [update_state_maxlen]
    cases hmx : b.maxlen with
    | none => trivial
    | some m =>
      rw [hmx] at hm
      obtain ⟨hb1, hb2⟩ := spec2 m hmx
      by_cases hle : (b.states.take (b.cursor + 1).toNat ++ [mkState resp]).length ≤ m
      · obtain ⟨hs, -⟩ := hb1 hle
        rw [hs]
        exact ⟨hle, hm.2⟩
      · obtain ⟨hs, -⟩ := hb2 (by omega)
        rw [hs, List.length_drop]
        exact ⟨by omega, hm.2⟩

/-- Successful `_traverse` preserves the history-stack invariant. -/
theorem traverse_inv (b b' : Browser) (n : Int) (h : traverse b n = Except.ok b')
    (hinv : browserInv b) : browserInv b' := by
  obtain ⟨-, h1, h2, rfl⟩ := traverse_ok_elim b b' n h
  obtain ⟨-, hm⟩ := hinv
  exact ⟨Or.inr ⟨h1, h2⟩, hm⟩

/-- Pushes and successful traversals never change the `history` flag or the
configured maximum length. -/
theorem reachable_fields (b0 b : Browser) (h : ReachableFrom b0 b) :
    b.history = b0.history ∧ b.maxlen = b0.maxlen := by
  induction h with
  | refl => exact ⟨rfl, rfl⟩
  | tail _ step ih =>
    cases step with
    | push resp =>
      rw [update_state_history, update_state_maxlen]
      exact ih
    | move x y hm =>
      obtain ⟨-, -, -, rfl⟩ := traverse_ok_elim _ _ _ hm
      exact ih

/-- The invariant holds for every freshly constructed browser. -/
theorem initBrowser_inv (p : HistoryParam) : browserInv (initBrowser p) := by
  cases p with
  | htrue => exact ⟨Or.inl ⟨rfl, rfl⟩, trivial⟩
  | hfalse => exact ⟨Or.inl ⟨rfl, rfl⟩, by simp [initBrowser, initMaxlen]⟩
  | hint n =>
    refine ⟨Or.inl ⟨rfl, rfl⟩, ?_⟩
    by_cases hn : n = 0
    · simp [initBrowser, initMaxlen, hn]
    · simp [initBrowser, initMaxlen, hn]
      omega

/-- The invariant holds at every browser reachable from a fresh one. -/
theorem reachable_inv (b0 b : Browser) (h : ReachableFrom b0 b)
    (h0 : browserInv b0) : browserInv b := by
  induction h with
  | refl => exact h0
  | tail _ step ih =>
    cases step with
    | push resp => exact update_state_inv _ resp ih
    | move x y hm => exact traverse_inv _ _ _ hm ih

/-- A sequence of successful navigations: each one dispatches and pushes its
response through `_update_state`. -/
def navAll (b : Browser) (rs : List Response) : Browser :=
  rs.foldl update_state b

/-- Invoking `back(1)` repeatedly, `k` times, stopping at the first error. -/
def backTimes (b : Browser) : Nat → Except Err Browser
  | 0 => .ok b
  | k + 1 => (backTimes b k).bind (fun b' => back b' 1)

/-- With no configured bound and the cursor at the last index, a push keeps
every existing state and appends the new one. -/
theorem update_state_unbounded_last (b : Browser) (r : Response)
    (hm : b.maxlen = none) (hc : b.cursor = (b.states.length : Int) - 1) :
    update_state b r
      = { b with states := b.states ++ [mkState r], cursor := b.cursor + 1 } := by
  unfold update_state
  rw [hm]
  have h0 : 0 ≤ b.cursor + 1 := by omega
  have hp : pyTakeTo b.states (b.cursor + 1) = b.states := by
    rw [pyTakeTo, if_pos h0]
    have ht : (b.cursor + 1).toNat = b.states.length := by omega
    rw [ht, List.take_length]
  rw [hp]

/-- Shape of a whole unbounded navigation sequence: every push appends. -/
theorem navAll_unbounded (rs : List Response) (b : Browser)
    (hm : b.maxlen = none) (hc : b.cursor = (b.states.length : Int) - 1) :
    (navAll b rs).states.length = b.states.length + rs.length ∧
    (navAll b rs).cursor = (b.states.length : Int) + rs.length - 1 ∧
    (navAll b rs).maxlen = none ∧ (navAll b rs).history = b.history := by
  induction rs generalizing b with
  | nil =>
    refine ⟨by simp [navAll], by simp [navAll]; omega, by simp [navAll, hm], by simp [navAll]⟩
  | cons r rs ih =>
    have hstep := update_state_unbounded_last b r hm hc
    have hm' : (update_state b r).maxlen = none := by rw [update_state_maxlen, hm]
    have hc' : (update_state b r).cursor = ((update_state b r).states.length : Int) - 1 := by
      rw [hstep]
      simp
      omega
    obtain ⟨ihl, ihc, ihm, ihh⟩ := ih (update_state b r) hm' hc'
    have hnav : navAll b (r :: rs) = navAll (update_state b r) rs := rfl
    rw [hnav]
    have hlen : (update_state b r).states.length = b.states.length + 1 := by
      rw [hstep]; simp
    have hhist : (update_state b r).history = b.history := update_state_history b r
    simp only [List.length_cons]
    refine ⟨by omega, ?_, ihm, by rw [ihh, hhist]⟩
    rw [ihc, hlen]
    push_cast
    omega

/-- Repeated `back(1)` succeeds as long as the cursor stays nonnegative. -/
theorem backTimes_ok (b : Browser) (k : Nat) (hh : b.history = true)
    (hk : (k : Int) ≤ b.cursor) (hcl : b.cursor < (b.states.length : Int)) :
    backTimes b k = .ok { b with cursor := b.cursor - k } := by
  induction k with
  | zero =>
    show Except.ok b = _
    norm_num
  | succ k ih =>
    have hk' : (k : Int) ≤ b.cursor := by push_cast at hk ⊢; omega
    rw [backTimes, ih hk']
    show back { b with cursor := b.cursor - k } 1 = _
    unfold back traverse
    rw [hh]
    have hcond : ¬ (b.cursor - (k : Int) + -1 * 1 ≥ (b.states.length : Int)
        ∨ b.cursor - (k : Int) + -1 * 1 < 0) := by
      push_neg
      constructor <;> push_cast at hk ⊢ <;> omega
    simp only [Bool.true_eq_false, if_false]
    rw [if_neg hcond]
    have : b.cursor - (k : Int) + -1 * 1 = b.cursor - ((k : Nat) + 1 : Nat) := by
      push_cast
      ring
    rw [this]

/-- C2.  For every reachable browser state (any sequence of pushes and
successful cursor moves from a fresh browser, under any history mode), the
cursor is a valid index into `_states`, or `-1` exactly when `_states` is
empty; and whenever `_maxlen` is set, the length of `_states` never
exceeds it. -/
theorem reachable_browser_invariant (p : HistoryParam) (b : Browser)
    (h : ReachableFrom (initBrowser p) b) :
    ((b.cursor = -1 ↔ b.states = []) ∧
     (b.states ≠ [] → 0 ≤ b.cursor ∧ b.cursor < (b.states.length : Int))) ∧
    (∀ m, b.maxlen = some m → b.states.length ≤ m) := by
  have hi := reachable_inv _ _ h (initBrowser_inv p)
  obtain ⟨hc, hm⟩ := hi
  refine ⟨⟨⟨?_, ?_⟩, ?_⟩, ?_⟩
  · intro h1
    rcases hc with ⟨he, -⟩ | ⟨h2, -⟩
    · exact he
    · omega
  · intro h1
    rcases hc with ⟨-, h2⟩ | ⟨h2, h3⟩
    · exact h2
    · rw [h1] at h3
      simp at h3
      omega
  · intro h1
    rcases hc with ⟨he, -⟩ | hgood
    · exact absurd he h1
    · exact hgood
  · intro m hmx
    rw [hmx] at hm
    exact hm.1

/-- Concrete responses used by the witnesses below. -/
def respA : Response := ⟨"http://a/", "x"⟩

def respB : Response := ⟨"http://b/", "y"⟩

def respC : Response := ⟨"http://c/", "z"⟩

/-- A browser holding two states with the cursor moved back to index 0. -/
def bTwoBack : Browser :=
  { history := true, maxlen := none, states := [mkState respA, mkState respB], cursor := 0 }

/-- A browser holding two states with the cursor at the last index. -/
def bTwoTop : Browser :=
  { history := true, maxlen := none, states := [mkState respA, mkState respB], cursor := 1 }

/-- Witness for C2 at a concrete reachable browser: one push from a fresh
bounded browser. -/
theorem reachable_browser_invariant_witness :
    (((update_state (initBrowser (.hint 2)) respA).cursor = -1 ↔
       (update_state (initBrowser (.hint 2)) respA).states = []) ∧
     ((update_state (initBrowser (.hint 2)) respA).states ≠ [] →
       0 ≤ (update_state (initBrowser (.hint 2)) respA).cursor ∧
       (update_state (initBrowser (.hint 2)) respA).cursor <
         ((update_state (initBrowser (.hint 2)) respA).states.length : Int))) ∧
    (∀ m, (update_state (initBrowser (.hint 2)) respA).maxlen = some m →
      (update_state (initBrowser (.hint 2)) respA).states.length ≤ m) :=
  reachable_browser_invariant (.hint 2) _
    (Relation.ReflTransGen.single (Step.push _ respA))

/-- C1.  Every push discards the entries beyond the cursor, appends the new
state, and sets the cursor to the new last index; with a configured bound it
evicts from the head down to the bound, decrementing the cursor by the
eviction count; and pushing after having moved back `K` steps discards
exactly the `K` abandoned forward entries, after which `forward` fails with
the out-of-range error. -/
theorem update_state_push_semantics (b : Browser) (resp : Response)
    (hinv : browserInv b) :
    (∀ _ : b.maxlen = none,
      (update_state b resp).states
        = b.states.take (b.cursor + 1).toNat ++ [mkState resp] ∧
      (update_state b resp).cursor
        = ((update_state b resp).states.length : Int) - 1) ∧
    (∀ m, b.maxlen = some m →
      (b.states.take (b.cursor + 1).toNat ++ [mkState resp]).length ≤ m →
      (update_state b resp).states
        = b.states.take (b.cursor + 1).toNat ++ [mkState resp] ∧
      (update_state b resp).cursor
        = ((update_state b resp).states.length : Int) - 1) ∧
    (∀ m, b.maxlen = some m →
      m < (b.states.take (b.cursor + 1).toNat ++ [mkState resp]).length →
      (update_state b resp).states
        = (b.states.take (b.cursor + 1).toNat ++ [mkState resp]).drop
            ((b.states.take (b.cursor + 1).toNat ++ [mkState resp]).length - m) ∧
      (update_state b resp).states.length = m ∧
      (update_state b resp).cursor
        = b.cursor + 1
          - (((b.states.take (b.cursor + 1).toNat ++ [mkState resp]).length : Int)
              - (m : Int))) ∧
    (∀ K : Nat, b.maxlen = none → b.history = true →
      b.cursor = (b.states.length : Int) - 1 - (K : Int) →
      (update_state b resp).states
        = b.states.take (b.states.length - K) ++ [mkState resp] ∧
      (update_state b resp).states.length + K = b.states.length + 1 ∧
      forward (update_state b resp) 1 = .error .indexOutOfRange) := by
  obtain ⟨h1, h2, h3, -⟩ := inv_take_length b hinv
  obtain ⟨spec1, spec2⟩ := update_state_cases b resp hinv
  have hlen2 : (b.states.take (b.cursor + 1).toNat ++ [mkState resp]).length
      = (b.states.take (b.cursor + 1).toNat).length + 1 := by
    simp
  refine ⟨?_, ?_, ?_, ?_⟩
  · intro hmx
    obtain ⟨hs, hc⟩ := spec1 hmx
    refine ⟨hs, ?_⟩
    rw [hs, hc]
    omega
  · intro m hmx hle
    obtain ⟨hs, hc⟩ := (spec2 m hmx).1 hle
    refine ⟨hs, ?_⟩
    rw [hs, hc]
    omega
  · intro m hmx hlt
    obtain ⟨hs, hc⟩ := (spec2 m hmx).2 hlt
    refine ⟨hs, ?_, hc⟩
    rw [hs, List.length_drop]
    omega
  · intro K hmx hhist hK
    obtain ⟨hs, hc⟩ := spec1 hmx
    have hKlen : (K : Int) ≤ (b.states.length : Int) := by
      rcases hinv.1 with ⟨-, hcm⟩ | ⟨hc0, -⟩ <;> omega
    have htn : (b.cursor + 1).toNat = b.states.length - K := by omega
    have hs' : (update_state b resp).states
        = b.states.take (b.states.length - K) ++ [mkState resp] := by
      rw [hs, htn]
    have hlen' : (update_state b resp).states.length + K = b.states.length + 1 := by
      rw [hs']
      rw [List.length_append, List.length_take]
      simp
      omega
    refine ⟨hs', hlen', ?_⟩
    have hh2 : (update_state b resp).history = true := by
      rw [update_state_history]
      exact hhist
    unfold forward traverse
    rw [hh2]
    have hcond : (update_state b resp).cursor + 1
        ≥ ((update_state b resp).states.length : Int) := by
      rw [hc]
      omega
    simp only [Bool.true_eq_false, if_false]
    rw [if_pos (Or.inl hcond)]

/-- Witness for C1: a browser holding two states with the cursor moved back
to index 0 (K = 1 abandoned forward entry), then pushed. -/
theorem update_state_push_semantics_witness :
    browserInv bTwoBack ∧
    ((update_state bTwoBack respC).states = [mkState respA, mkState respC] ∧
     forward (update_state bTwoBack respC) 1 = .error .indexOutOfRange) := by
  refine ⟨by decide, ?_, ?_⟩
  · have h := ((update_state_push_semantics bTwoBack respC (by decide)).2.2.2
      1 rfl rfl (by decide)).1
    rw [h]
    decide
  · exact ((update_state_push_semantics bTwoBack respC (by decide)).2.2.2
      1 rfl rfl (by decide)).2.2

/-- C3.  After `N ≥ 1` successful navigations on an unbounded-history
browser, the stack holds exactly `N` states, `back(1)` succeeds `N - 1`
times in a row, and the `N`-th consecutive `back(1)` fails with the
out-of-range error. -/
theorem unbounded_history_length_and_back_range (rs : List Response)
    (h1 : 1 ≤ rs.length) :
    (navAll (initBrowser .htrue) rs).states.length = rs.length ∧
    (∀ k : Nat, (k : Int) ≤ (rs.length : Int) - 1 →
      backTimes (navAll (initBrowser .htrue) rs) k
        = .ok { navAll (initBrowser .htrue) rs with
                cursor := (rs.length : Int) - 1 - (k : Int) }) ∧
    backTimes (navAll (initBrowser .htrue) rs) rs.length
      = .error .indexOutOfRange := by
  obtain ⟨hl, hc, hm, hh⟩ := navAll_unbounded rs (initBrowser .htrue) rfl (by decide)
  have h0 : (initBrowser .htrue).states.length = 0 := rfl
  have hl' : (navAll (initBrowser .htrue) rs).states.length = rs.length := by omega
  have hh' : (navAll (initBrowser .htrue) rs).history = true := by
    rw [hh]
    rfl
  have hcv : (navAll (initBrowser .htrue) rs).cursor = (rs.length : Int) - 1 := by omega
  refine ⟨hl', ?_, ?_⟩
  · intro k hk
    have hb := backTimes_ok (navAll (initBrowser .htrue) rs) k hh' (by omega) (by omega)
    rw [hb, hcv]
  · obtain ⟨N', hN⟩ : ∃ n, rs.length = n + 1 := ⟨rs.length - 1, by omega⟩
    rw [hN, backTimes]
    have hstep := backTimes_ok (navAll (initBrowser .htrue) rs) N' hh'
      (by omega) (by omega)
    rw [hstep]
    show back { navAll (initBrowser .htrue) rs with
                cursor := (navAll (initBrowser .htrue) rs).cursor - (N' : Int) } 1 = _
    unfold back traverse
    rw [hh']
    simp only [Bool.true_eq_false, if_false]
    rw [if_pos (Or.inr (by rw [hcv]; push_cast; omega))]

/-- Witness for C3 at a concrete two-element navigation sequence. -/
theorem unbounded_history_length_and_back_range_witness :
    (navAll (initBrowser .htrue) [respA, respB]).states.length = 2 ∧
    backTimes (navAll (initBrowser .htrue) [respA, respB]) 1
      = .ok { navAll (initBrowser .htrue) [respA, respB] with
              cursor := (2 : Int) - 1 - (1 : Int) } ∧
    backTimes (navAll (initBrowser .htrue) [respA, respB]) 2
      = .error .indexOutOfRange := by
  obtain ⟨ha, hb, hcerr⟩ :=
    unbounded_history_length_and_back_range [respA, respB] (by decide)
  exact ⟨ha, by simpa using hb 1 (by decide), hcerr⟩

/-- C4.  When the browser was constructed with a falsy history argument,
every `back`/`forward` call on every browser reachable from it fails with
the history-disabled error, for any argument and after any number of
navigations. -/
theorem history_disabled_traverse_always_fails (p : HistoryParam)
    (hp : historyTruthy p = false) (b : Browser)
    (h : ReachableFrom (initBrowser p) b) (n : Int) :
    back b n = .error .notTrackingHistory ∧
    forward b n = .error .notTrackingHistory := by
  have hh : b.history = false := by
    rw [(reachable_fields _ _ h).1]
    exact hp
  constructor
  · unfold back traverse
    rw [hh, if_pos rfl]
  · unfold forward traverse
    rw [hh, if_pos rfl]

/-- Witness for C4: browser in history-off mode after one navigation. -/
theorem history_disabled_traverse_always_fails_witness :
    historyTruthy .hfalse = false ∧
    back (update_state (initBrowser .hfalse) respA) 1
      = .error .notTrackingHistory ∧
    forward (update_state (initBrowser .hfalse) respA) 1
      = .error .notTrackingHistory :=
  ⟨rfl, history_disabled_traverse_always_fails .hfalse rfl _
    (Relation.ReflTransGen.single (Step.push _ respA)) 1⟩

/-- C10.  `back(n)` is definitionally `_traverse(-1 * n)`, hence behaves
exactly as `forward(-n)` for every integer `n` (zero and negatives
included): identical results in every case, and on success the cursor moves
to `cursor - n`. -/
theorem back_eq_forward_neg (b : Browser) (n : Int) :
    back b n = forward b (-n) ∧
    back b n = traverse b (-n) ∧
    (∀ b', back b n = .ok b' → b'.states = b.states ∧ b'.cursor = b.cursor - n) := by
  have he : back b n = traverse b (-n) := by
    unfold back
    rw [neg_one_mul]
  refine ⟨he, he, ?_⟩
  intro b' hok
  rw [he] at hok
  obtain ⟨-, -, -, rfl⟩ := traverse_ok_elim _ _ _ hok
  refine ⟨rfl, ?_⟩
  show b.cursor + -n = b.cursor - n
  omega

/-- Witness for C10: a concrete successful `back(1)` equals `forward(-1)`. -/
theorem back_eq_forward_neg_witness :
    back bTwoTop 1 = forward bTwoTop (-1) ∧
    bTwoBack.states = bTwoTop.states ∧ bTwoBack.cursor = bTwoTop.cursor - 1 := by
  refine ⟨(back_eq_forward_neg bTwoTop 1).1, ?_⟩
  exact (back_eq_forward_neg bTwoTop 1).2.2 bTwoBack (by decide)

/-! URL resolution.  `_build_url` delegates to `urlparse.urljoin`; the
specification treats this as the standard-library collaborator implementing
"standard URI-join resolution rules".  The functions below model CPython
`urllib.parse` (`urlsplit`, `urlparse`, `urlunsplit`, `urlunparse`,
`urljoin`) over character lists. -/

/-- Python `str.split(sep)` for a one-character separator. -/
def splitOnChar (sep : Char) : List Char → List (List Char)
  | [] => [[]]
  | c :: rest =>
    match splitOnChar sep rest with
    | [] => if c = sep then [[], []] else [[c]]
    | h :: t => if c = sep then [] :: h :: t else (c :: h) :: t

/-- Split at the first occurrence of `sep`: the part before and the part
after it, or `none` when `sep` is absent. -/
def splitAtFirst (sep : Char) : List Char → Option (List Char × List Char)
  | [] => none
  | c :: rest =>
    if c = sep then some ([], rest)
    else
      match splitAtFirst sep rest with
      | none => none
      | some (a, b) => some (c :: a, b)

/-- Split around the last occurrence of `sep`, when present. -/
def splitAtLast (sep : Char) : List Char → Option (List Char × List Char)
  | [] => none
  | c :: rest =>
    match splitAtLast sep rest with
    | some (a, b) => some (c :: a, b)
    | none => if c = sep then some ([], rest) else none

/-- CPython `scheme_chars`: letters, digits, `+`, `-`, `.`. -/
def isSchemeChar (c : Char) : Bool :=
  c.isAlpha || c.isDigit || c == '+' || c == '-' || c == '.'

/-- Lowercasing of a character list (Python `str.lower` on ASCII schemes). -/
def lowerStr (cs : List Char) : List Char :=
  cs.map Char.toLower

/-- Result of `urlsplit`. -/
structure SplitUrl where
  scheme : String
  netloc : String
  path : String
  query : String
  fragment : String
deriving DecidableEq

/-- Result of `urlparse` (with the `;parameters` component). -/
structure ParsedUrl where
  scheme : String
  netloc : String
  path : String
  params : String
  query : String
  fragment : String
deriving DecidableEq

/-- CPython `urlsplit` preprocessing: strip leading C0-control and space
characters, then remove every tab, carriage return and newline. -/
def cleanseUrl (cs : List Char) : List Char :=
  (cs.dropWhile (fun c => c.toNat ≤ 0x20)).filter
    (fun c => !(c == '\t' || c == '\r' || c == '\n'))

/-- Modelled from the spec: the standard-library `urlsplit` collaborator
(CPython `urllib.parse.urlsplit` with `allow_fragments=True` and no default
scheme), backing the "standard URI-join resolution rules" the specification
prescribes for `_build_url`.  A leading `name:` with scheme characters is the
scheme (lowercased); a following `//` introduces the network location (up to
the next `/`, `?` or `#`); the fragment is split at the first `#`, then the
query at the first `?`. -/
def urlsplitNoDefault (url : String) : SplitUrl :=
  let cs := cleanseUrl url.data
  let schemeRest : String × List Char :=
    match splitAtFirst ':' cs with
    | none => ("", cs)
    | some (before, after) =>
      if before ≠ [] ∧ (before.headD 'x').isAlpha ∧ before.all isSchemeChar then
        (String.mk (lowerStr before), after)
      else ("", cs)
  let netlocRest : String × List Char :=
    match schemeRest.2 with
    | '/' :: '/' :: r =>
      (String.mk (r.takeWhile (fun c => !(c == '/' || c == '?' || c == '#'))),
       r.dropWhile (fun c => !(c == '/' || c == '?' || c == '#')))
    | other => ("", other)
  let fragSplit : List Char × String :=
    match splitAtFirst '#' netlocRest.2 with
    | none => (netlocRest.2, "")
    | some (a, b) => (a, String.mk b)
  let querySplit : List Char × String :=
    match splitAtFirst '?' fragSplit.1 with
    | none => (fragSplit.1, "")
    | some (a, b) => (a, String.mk b)
  { scheme := schemeRest.1, netloc := netlocRest.1,
    path := String.mk querySplit.1, query := querySplit.2,
    fragment := fragSplit.2 }

/-- CPython `uses_relative`. -/
def usesRelative : List String :=
  ["", "ftp", "http", "gopher", "nntp", "imap", "wais", "file", "https",
   "shttp", "mms", "prospero", "rtsp", "rtspu", "sftp", "svn", "svn+ssh",
   "ws", "wss"]

/-- CPython `uses_netloc`. -/
def usesNetloc : List String :=
  ["", "ftp", "http", "gopher", "nntp", "telnet", "imap", "wais", "file",
   "mms", "https", "shttp", "snews", "prospero", "rtsp", "rtspu", "rsync",
   "svn", "svn+ssh", "sftp", "nfs", "git", "git+ssh", "ws", "wss"]

/-- CPython `uses_params`. -/
def usesParams : List String :=
  ["", "ftp", "hdl", "prospero", "http", "imap", "https", "shttp", "rtsp",
   "rtspu", "sip", "sips", "mms", "sftp", "tel"]

/-- CPython `_splitparams`: split `;parameters` off the last path segment
(searching from the last `/` when one is present). -/
def splitparams (path : String) : String × String :=
  match splitAtLast '/' path.data with
  | some (pre, post) =>
    match splitAtFirst ';' post with
    | none => (path, "")
    | some (a, b) => (String.mk (pre ++ '/' :: a), String.mk b)
  | none =>
    match splitAtFirst ';' path.data with
    | none => (String.mk path.data.dropLast, path)
    | some (a, b) => (String.mk a, String.mk b)

/-- Modelled from the spec: CPython `urllib.parse.urlparse` — `urlsplit`,
with a default scheme filled in when the URL carries none, plus separation of
the `;parameters` component for schemes that use it. -/
def urlparseD (url : String) (defaultScheme : String) : ParsedUrl :=
  let s := urlsplitNoDefault url
  let scheme := if s.scheme = "" then defaultScheme else s.scheme
  let pp : String × String :=
    if scheme ∈ usesParams ∧ (';' : Char) ∈ s.path.data then splitparams s.path
    else (s.path, "")
  { scheme := scheme, netloc := s.netloc, path := pp.1, params := pp.2,
    query := s.query, fragment := s.fragment }

/-- CPython `urlunsplit` (Python 3.11 form of the netloc condition). -/
def urlunsplit (scheme netloc path query fragment : String) : String :=
  let u1 :=
    if netloc ≠ "" ∨ (scheme ≠ "" ∧ scheme ∈ usesNetloc ∧ path.data.take 2 ≠ ['/', '/'])
    then
      "//" ++ netloc ++ (if path ≠ "" ∧ path.data.take 1 ≠ ['/'] then "/" ++ path else path)
    else path
  let u2 := if scheme ≠ "" then scheme ++ ":" ++ u1 else u1
  let u3 := if query ≠ "" then u2 ++ "?" ++ query else u2
  if fragment ≠ "" then u3 ++ "#" ++ fragment else u3

/-- CPython `urlunparse`. -/
def urlunparse (p : ParsedUrl) : String :=
  urlunsplit p.scheme p.netloc
    (if p.params ≠ "" then p.path ++ ";" ++ p.params else p.path)
    p.query p.fragment

/-- The `'.'`/`'..'` resolution loop of CPython `urljoin`, including the
trailing empty segment appended when the last segment is `'.'` or `'..'`. -/
def resolveSegments (segs : List String) : List String :=
  let core := segs.foldl
    (fun acc seg =>
      if seg = ".." then acc.dropLast
      else if seg = "." then acc
      else acc ++ [seg]) []
  if segs.getLast? = some "." ∨ segs.getLast? = some ".." then core ++ [""]
  else core

/-- CPython `urljoin`'s slice assignment
`segments[1:-1] = filter(None, segments[1:-1])`: drop empty interior
segments, keeping the first and last. -/
def filterMiddle (segs : List String) : List String :=
  match segs with
  | [] => []
  | [a] => [a]
  | a :: rest =>
    match rest.getLast? with
    | none => [a]
    | some l => a :: (rest.dropLast.filter (fun s => s != "")) ++ [l]

/-- Python `'/'.join`. -/
def joinSlash : List String → String
  | [] => ""
  | [a] => a
  | a :: rest => a ++ "/" ++ joinSlash rest

/-- Modelled from the spec: CPython `urllib.parse.urljoin`, the
standard-URI-join collaborator `_build_url` delegates to
(`urlparse.urljoin(self.url, url)`): an empty reference returns the base, an
empty base returns the reference, a reference with a different (or
non-relative) scheme is returned as given, a reference carrying a network
location replaces everything after the scheme, an empty path keeps the
base's path (and its query when the reference has none), and otherwise the
reference path is merged against the base path with `'.'`/`'..'`
resolution. -/
def urljoin (base url : String) : String :=
  if base = "" then url
  else if url = "" then base
  else
    let bp := urlparseD base ""
    let p := urlparseD url bp.scheme
    if p.scheme ≠ bp.scheme ∨ p.scheme ∉ usesRelative then url
    else if p.scheme ∈ usesNetloc ∧ p.netloc ≠ "" then
      urlunparse ⟨p.scheme, p.netloc, p.path, p.params, p.query, p.fragment⟩
    else
      let netloc := if p.scheme ∈ usesNetloc then bp.netloc else p.netloc
      if p.path = "" ∧ p.params = "" then
        urlunparse ⟨p.scheme, netloc, bp.path, bp.params,
          (if p.query = "" then bp.query else p.query), p.fragment⟩
      else
        let baseParts0 := (splitOnChar '/' bp.path.data).map String.mk
        let baseParts :=
          if baseParts0.getLast? ≠ some "" then baseParts0.dropLast else baseParts0
        let segments :=
          if p.path.data.take 1 = ['/'] then (splitOnChar '/' p.path.data).map String.mk
          else filterMiddle (baseParts ++ (splitOnChar '/' p.path.data).map String.mk)
        let joined := joinSlash (resolveSegments segments)
        urlunparse ⟨p.scheme, netloc, (if joined = "" then "/" else joined),
          p.params, p.query, p.fragment⟩

example : urljoin "http://a/b/c?q=1" "" = "http://a/b/c?q=1" := by decide
example : urljoin "http://a/b/c" "d/e" = "http://a/b/d/e" := by decide
example : urljoin "http://a/b/c" "/d" = "http://a/d" := by decide
example : urljoin "http://a/b/c" "../d" = "http://a/d" := by decide
example : urljoin "http://a/b/c" "http://x/y" = "http://x/y" := by decide
example : urljoin "http://a/b/c" "?q=2" = "http://a/b/c?q=2" := by decide
example : urljoin "http://a/b/c" "//h/p" = "http://h/p" := by decide
example : urljoin "http://a/b/c" "d;p?q#f" = "http://a/b/d;p?q#f" := by decide
example : urljoin "http://a/b/c;x?y" "." = "http://a/b/" := by decide
example : urljoin "http://a/b/c" ".." = "http://a/" := by decide
example : urljoin "http://a/b/c" "../../../g" = "http://a/g" := by decide
example : urljoin "http://a/b/c" "g:h" = "g:h" := by decide
example : urljoin "http://a/b/c" "./g" = "http://a/b/g" := by decide
example : urljoin "http://a/b/c" "g//h" = "http://a/b/g/h" := by decide
example : urljoin "http://a/b/" "?" = "http://a/b/" := by decide
example : urljoin "http://h" "p" = "http://h/p" := by decide
example : urljoin "http://a/b/c#frag" "d#e" = "http://a/b/d#e" := by decide

/-- Python string truthiness fallback `a or b`: `a` when non-empty,
otherwise `b`. -/
def pyOr (a b : String) : String :=
  if a = "" then b else a

/-- `RoboBrowser._build_url`: `urlparse.urljoin(self.url, url)`.  Reading
`self.url` goes through the `state` property and raises when there is no
current state. -/
def build_url (b : Browser) (url : String) : Except Err String :=
  (getState b).map (fun st => urljoin st.url url)

/-- The target URL of `submit_form`:
`url = self._build_url(form.action) or self.url`. -/
def submitFormTarget (b : Browser) (action : String) : Except Err String :=
  (getState b).map (fun st => pyOr (urljoin st.url action) st.url)

/-- `RoboBrowser.open`: dispatch through the session, then `_update_state`.
A raising dispatch propagates before the push, so the returned browser is
the unchanged input paired with the error. -/
def openOp (b : Browser) (transport : String → Except TransportErr Response)
    (url : String) : Browser × Option Err :=
  match transport url with
  | .error e => (b, some (.transportFail e))
  | .ok resp => (update_state b resp, none)

/-- `RoboBrowser.follow_link`: a link without an `href` attribute raises the
missing-href `RoboError`; otherwise the href is resolved by `_build_url`
(which reads `self.url`) and passed to `open`. -/
def followLinkOp (b : Browser) (href : Option String)
    (transport : String → Except TransportErr Response) : Browser × Option Err :=
  match href with
  | none => (b, some .missingHref)
  | some h =>
    match build_url b h with
    | .error e => (b, some e)
    | .ok url => openOp b transport url

/-- `RoboBrowser.submit_form`: reads `self.url` (the referer check
`if self.url and self.send_referer` evaluates `self.url` first and raises
without a current state), resolves the target from the form's action with
the current-URL fallback, serializes the payload through the external form
collaborator, dispatches, and pushes the new state.  Any raise before the
dispatch leaves the browser untouched. -/
def submitFormOp (b : Browser) (action : String) (serialize : Except Err Unit)
    (transport : String → Except TransportErr Response) : Browser × Option Err :=
  match getState b with
  | .error e => (b, some e)
  | .ok st =>
    match serialize with
    | .error e => (b, some e)
    | .ok _ => openOp b transport (pyOr (urljoin st.url action) st.url)

/-- The regex search of `re_meta_refresh_content_url` (`url=(.+)`,
IGNORECASE) on the content attribute: the first position where `url=`
(case-insensitive `url`, literal `=`) is followed by at least one
non-newline character matches, and the group captures greedily to the end of
that line. -/
def searchMetaUrl : List Char → Option (List Char)
  | [] => none
  | c :: rest =>
    match c :: rest with
    | u :: r :: l :: e :: tail =>
      if u.toLower = 'u' ∧ r.toLower = 'r' ∧ l.toLower = 'l' ∧ e = '='
          ∧ tail.takeWhile (fun ch => ch != '\n') ≠ [] then
        some (tail.takeWhile (fun ch => ch != '\n'))
      else searchMetaUrl rest
    | _ => searchMetaUrl rest

example : searchMetaUrl "0; URL=/next?x=1".data = some "/next?x=1".data := by decide
example : searchMetaUrl "0; nothing here".data = none := by decide
example : searchMetaUrl "url=".data = none := by decide

/-- The current document of a state: the `parsed` value when it has been
computed or overwritten, otherwise the parse of the response body (the
`cached_property` computation, delegated to the parser collaborator
`parseFn`). -/
def stateDoc (st : RoboState) (parseFn : String → Doc) : Doc :=
  match st.parsed with
  | some d => d
  | none => parseFn st.response.content

/-- The decision taken by `RoboBrowser.meta_refresh` on a document: `none`
for each of the three silent no-op returns (no matching meta tag, falsy
`content`, no `url=` match), a Python `KeyError` when the found tag has no
`content` attribute at all (`meta_refresh['content']`), or the extracted
target URL. -/
def metaRefreshTarget (doc : Doc) : Except Err (Option String) :=
  match doc.findMetaRefresh with
  | none => .ok none
  | some tag =>
    match tag.contentAttr with
    | none => .error (.keyError "content")
    | some content =>
      if content = "" then .ok none
      else
        match searchMetaUrl content.data with
        | none => .ok none
        | some u => .ok (some (String.mk u))

/-- `RoboBrowser.meta_refresh`: query the current document (raising without
a current state), and `open` the extracted URL when one parses out. -/
def metaRefreshOp (b : Browser) (parseFn : String → Doc)
    (transport : String → Except TransportErr Response) : Browser × Option Err :=
  match getState b with
  | .error e => (b, some e)
  | .ok st =>
    match metaRefreshTarget (stateDoc st parseFn) with
    | .error e => (b, some e)
    | .ok none => (b, none)
    | .ok (some u) => openOp b transport u

/-- The cache-configuration check of `RoboBrowser.__init__`: with `cache`
truthy the adapter is mounted and construction proceeds; otherwise a truthy
`max_age` raises `ValueError('Parameter max_age is provided, but caching is
turned off')` and a truthy `max_count` raises the analogous `ValueError`,
both at construction time. -/
def roboBrowserInit (cache maxAge maxCount : Bool) (p : HistoryParam) :
    Except Err Browser :=
  if cache then .ok (initBrowser p)
  else if maxAge then .error .configMaxAge
  else if maxCount then .error .configMaxCount
  else .ok (initBrowser p)

/-- `RoboBrowser.load_html`: parse the given html through the parser
collaborator and overwrite the current state's parsed document
(`self.state.parsed = parsed`); reading `self.state` raises on an empty
history. -/
def load_html (b : Browser) (html : String) (parseFn : String → Doc) :
    Except Err Browser :=
  if b.cursor = -1 then .error .noState
  else
    match pyIndex b.states b.cursor with
    | none => .error .indexOutOfRange
    | some st =>
      .ok { b with states := pySetIdx b.states b.cursor
                     { st with parsed := some (parseFn html) } }

/-- `RoboBrowser.reparse`: re-read the current response's body, optionally
decoding it through the codec collaborator, re-parse, and overwrite the
current state's parsed document. -/
def reparse (b : Browser) (decode : Bool) (decodeFn : String → String)
    (parseFn : String → Doc) : Except Err Browser :=
  if b.cursor = -1 then .error .noState
  else
    match pyIndex b.states b.cursor with
    | none => .error .indexOutOfRange
    | some st =>
      .ok { b with states := pySetIdx b.states b.cursor
                     { st with parsed := some (parseFn
                         (if decode then decodeFn st.response.content
                          else st.response.content)) } }

/-- A browser holding one freshly pushed state. -/
def bOne : Browser := update_state (initBrowser .htrue) respA

/-- An always-failing transport. -/
def failTransport : String → Except TransportErr Response := fun _ => .error .timeout

/-- A parser collaborator producing a document without a refresh meta tag. -/
def parseNoTag : String → Doc := fun _ => ⟨none⟩

/-- A parser collaborator producing a document whose refresh meta tag has no
`content` attribute. -/
def parseTagNoContent : String → Doc := fun _ => ⟨some ⟨none⟩⟩

/-- C5 counterexample: on a current page whose document holds a refresh meta
tag carrying no `content` attribute at all, `meta_refresh` raises a
`KeyError` from the attribute lookup `meta_refresh['content']` instead of
being a silent no-op. -/
theorem meta_refresh_missing_content_attr_raises :
    metaRefreshOp bOne parseTagNoContent failTransport
      = (bOne, some (Err.keyError "content")) := by
  decide

/-- C5 (amended): `meta_refresh` performs zero navigations and raises no
error when no refresh meta tag is found, when the tag's `content` attribute
is present but empty, and when the content has no parseable `url=`
fragment; when the tag is present but the `content` attribute is absent,
the attribute lookup raises a key error (still navigating nowhere). -/
theorem meta_refresh_noop_cases (b : Browser) (st : RoboState)
    (parseFn : String → Doc)
    (transport : String → Except TransportErr Response)
    (hst : getState b = .ok st) :
    ((stateDoc st parseFn).findMetaRefresh = none →
      metaRefreshOp b parseFn transport = (b, none)) ∧
    (∀ tag, (stateDoc st parseFn).findMetaRefresh = some tag →
      (tag.contentAttr = some "" → metaRefreshOp b parseFn transport = (b, none)) ∧
      (∀ c, tag.contentAttr = some c → searchMetaUrl c.data = none →
        metaRefreshOp b parseFn transport = (b, none)) ∧
      (tag.contentAttr = none →
        metaRefreshOp b parseFn transport = (b, some (Err.keyError "content")))) := by
  have hop : metaRefreshOp b parseFn transport =
      match metaRefreshTarget (stateDoc st parseFn) with
      | .error e => (b, some e)
      | .ok none => (b, none)
      | .ok (some u) => openOp b transport u := by
    unfold metaRefreshOp
    rw [hst]
  constructor
  · intro hnone
    rw [hop]
    simp [metaRefreshTarget, hnone]
  · intro tag htag
    refine ⟨?_, ?_, ?_⟩
    · intro hempty
      rw [hop]
      simp [metaRefreshTarget, htag, hempty]
    · intro c hc hsearch
      by_cases hce : c = ""
      · rw [hop]
        simp [metaRefreshTarget, htag, hc, hce]
      · rw [hop]
        simp [metaRefreshTarget, htag, hc, hce, hsearch]
    · intro habs
      rw [hop]
      simp [metaRefreshTarget, htag, habs]

/-- Witness for the amended C5 on a concrete no-tag page. -/
theorem meta_refresh_noop_cases_witness :
    getState bOne = .ok (mkState respA) ∧
    metaRefreshOp bOne parseNoTag failTransport = (bOne, none) :=
  ⟨by decide,
   (meta_refresh_noop_cases bOne (mkState respA) parseNoTag failTransport
     (by decide)).1 rfl⟩

/-- C6: requesting a freshness window (`max_age`) or an entry cap
(`max_count`) with caching disabled raises at construction time; with
caching enabled construction succeeds with those options, and the request
path never produces such a configuration error. -/
theorem cache_options_require_cache (p : HistoryParam) :
    (∀ maxAge maxCount : Bool,
      roboBrowserInit true maxAge maxCount p = .ok (initBrowser p)) ∧
    (∀ maxCount : Bool,
      roboBrowserInit false true maxCount p = .error .configMaxAge) ∧
    roboBrowserInit false false true p = .error .configMaxCount ∧
    (∀ (b : Browser) (transport : String → Except TransportErr Response)
      (url : String),
      (openOp b transport url).2 ≠ some Err.configMaxAge ∧
      (openOp b transport url).2 ≠ some Err.configMaxCount) := by
  refine ⟨fun _ _ => rfl, fun _ => rfl, rfl, ?_⟩
  intro b transport url
  unfold openOp
  cases htr : transport url with
  | error e => exact ⟨by simp, by simp⟩
  | ok r => exact ⟨by simp, by simp⟩

/-- Witness for C6 at concrete configuration flags. -/
theorem cache_options_require_cache_witness :
    roboBrowserInit true true true .htrue = .ok (initBrowser .htrue) ∧
    roboBrowserInit false true false .htrue = .error .configMaxAge ∧
    roboBrowserInit false false true .htrue = .error .configMaxCount :=
  ⟨(cache_options_require_cache .htrue).1 true true,
   (cache_options_require_cache .htrue).2.1 false,
   (cache_options_require_cache .htrue).2.2.1⟩

/-- C8: when every transport dispatch fails, no navigation operation —
`open`, `follow_link`, `submit_form`, `meta_refresh` — creates a state or
moves the cursor: the state sequence and cursor after the failed call equal
their values before it (`open` moreover reports the failure). -/
theorem failed_dispatch_preserves_history (b : Browser)
    (transport : String → Except TransportErr Response)
    (hfail : ∀ u, ∃ e, transport u = .error e) :
    (∀ url, (openOp b transport url).1.states = b.states ∧
            (openOp b transport url).1.cursor = b.cursor ∧
            (openOp b transport url).2 ≠ none) ∧
    (∀ href, (followLinkOp b href transport).1.states = b.states ∧
             (followLinkOp b href transport).1.cursor = b.cursor) ∧
    (∀ action serialize,
      (submitFormOp b action serialize transport).1.states = b.states ∧
      (submitFormOp b action serialize transport).1.cursor = b.cursor) ∧
    (∀ parseFn, (metaRefreshOp b parseFn transport).1.states = b.states ∧
                (metaRefreshOp b parseFn transport).1.cursor = b.cursor) := by
  have hopen : ∀ url, (openOp b transport url).1 = b ∧ (openOp b transport url).2 ≠ none := by
    intro url
    obtain ⟨e, he⟩ := hfail url
    unfold openOp
    rw [he]
    exact ⟨rfl, by simp⟩
  refine ⟨?_, ?_, ?_, ?_⟩
  · intro url
    obtain ⟨h1, h2⟩ := hopen url
    exact ⟨by rw [h1], by rw [h1], h2⟩
  · intro href
    cases href with
    | none => exact ⟨rfl, rfl⟩
    | some h =>
      unfold followLinkOp
      dsimp only
      cases hbu : build_url b h with
      | error e => exact ⟨rfl, rfl⟩
      | ok url =>
        dsimp only
        rw [(hopen url).1]
        exact ⟨rfl, rfl⟩
  · intro action serialize
    unfold submitFormOp
    cases hst : getState b with
    | error e => exact ⟨rfl, rfl⟩
    | ok st =>
      dsimp only
      cases serialize with
      | error e => exact ⟨rfl, rfl⟩
      | ok u =>
        dsimp only
        rw [(hopen (pyOr (urljoin st.url action) st.url)).1]
        exact ⟨rfl, rfl⟩
  · intro parseFn
    unfold metaRefreshOp
    cases hst : getState b with
    | error e => exact ⟨rfl, rfl⟩
    | ok st =>
      dsimp only
      cases htg : metaRefreshTarget (stateDoc st parseFn) with
      | error e => exact ⟨rfl, rfl⟩
      | ok target =>
        cases target with
        | none => exact ⟨rfl, rfl⟩
        | some u =>
          dsimp only
          rw [(hopen u).1]
          exact ⟨rfl, rfl⟩

/-- Witness for C8 at a concrete browser and failing transport. -/
theorem failed_dispatch_preserves_history_witness :
    (openOp bOne failTransport "http://x/").1.states = bOne.states ∧
    (openOp bOne failTransport "http://x/").1.cursor = bOne.cursor ∧
    (submitFormOp bOne "d" (.ok ()) failTransport).1.states = bOne.states := by
  obtain ⟨h1, h2, h3, h4⟩ := failed_dispatch_preserves_history bOne failTransport
    (fun u => ⟨.timeout, rfl⟩)
  exact ⟨(h1 "http://x/").1, (h1 "http://x/").2.1, (h3 "d" (.ok ())).1⟩

/-- A resolved Python index is in bounds. -/
theorem pyIdxNat_lt (len : Nat) (cur : Int) (i : Nat)
    (h : pyIdxNat len cur = some i) : i < len := by
  unfold pyIdxNat at h
  split at h <;> split at h <;> simp_all <;> omega

/-- Frame effect of overwriting `parsed` on the state at the cursor. -/
theorem pySet_current_effect (b : Browser) (st : RoboState) (d : Doc)
    (hidx : pyIndex b.states b.cursor = some st) :
    ∃ i, pyIdxNat b.states.length b.cursor = some i ∧
      b.states.get? i = some st ∧
      (pySetIdx b.states b.cursor { st with parsed := some d }).length
        = b.states.length ∧
      (∀ j, j ≠ i →
        (pySetIdx b.states b.cursor { st with parsed := some d }).get? j
          = b.states.get? j) ∧
      (pySetIdx b.states b.cursor { st with parsed := some d }).get? i
        = some { st with parsed := some d } := by
  unfold pyIndex at hidx
  cases hop : pyIdxNat b.states.length b.cursor with
  | none =>
    rw [hop] at hidx
    cases hidx
  | some i =>
    rw [hop] at hidx
    simp only [Option.bind_some, Option.some_bind] at hidx
    have hlt : i < b.states.length := pyIdxNat_lt _ _ _ hop
    refine ⟨i, rfl, hidx, ?_, ?_, ?_⟩
    · unfold pySetIdx
      rw [hop]
      exact List.length_set b.states i _
    · intro j hj
      unfold pySetIdx
      rw [hop]
      exact List.get?_set_ne _ b.states (Ne.symm hj)
    · unfold pySetIdx
      rw [hop]
      exact List.get?_set_eq_of_lt _ hlt

/-- C9: the explicit re-parse operations `reparse` and `load_html` mutate
only the current state's cached parsed-document field: when they succeed,
the cursor, the sequence length, every other state, and the current state's
response and resolved URL are unchanged; only `parsed` is overwritten. -/
theorem reparse_load_html_only_overwrite_parsed (b : Browser) (html : String)
    (decode : Bool) (decodeFn : String → String) (parseFn : String → Doc) :
    (∀ b', load_html b html parseFn = .ok b' →
      b'.cursor = b.cursor ∧ b'.history = b.history ∧ b'.maxlen = b.maxlen ∧
      b'.states.length = b.states.length ∧
      ∃ i st, pyIdxNat b.states.length b.cursor = some i ∧
        b.states.get? i = some st ∧
        (∀ j, j ≠ i → b'.states.get? j = b.states.get? j) ∧
        b'.states.get? i = some { response := st.response, url := st.url,
                                  parsed := some (parseFn html) }) ∧
    (∀ b', reparse b decode decodeFn parseFn = .ok b' →
      b'.cursor = b.cursor ∧ b'.history = b.history ∧ b'.maxlen = b.maxlen ∧
      b'.states.length = b.states.length ∧
      ∃ i st, pyIdxNat b.states.length b.cursor = some i ∧
        b.states.get? i = some st ∧
        (∀ j, j ≠ i → b'.states.get? j = b.states.get? j) ∧
        b'.states.get? i = some { response := st.response, url := st.url,
                                  parsed := some (parseFn
                                    (if decode then decodeFn st.response.content
                                     else st.response.content)) }) := by
  constructor
  · intro b' hb'
    unfold load_html at hb'
    split at hb'
    · cases hb'
    · split at hb'
      · cases hb'
      · next st hst =>
        cases hb'
        obtain ⟨i, hi, hget, hlen, hother, hcur⟩ := pySet_current_effect b st (parseFn html) hst
        exact ⟨rfl, rfl, rfl, hlen, i, st, hi, hget, hother, hcur⟩
  · intro b' hb'
    unfold reparse at hb'
    split at hb'
    · cases hb'
    · split at hb'
      · cases hb'
      · next st hst =>
        cases hb'
        obtain ⟨i, hi, hget, hlen, hother, hcur⟩ := pySet_current_effect b st
          (parseFn (if decode then decodeFn st.response.content
                    else st.response.content)) hst
        exact ⟨rfl, rfl, rfl, hlen, i, st, hi, hget, hother, hcur⟩

/-- The concrete result of `load_html` on `bOne` with the no-tag parser. -/
def bOneLoaded : Browser :=
  { history := true, maxlen := none,
    states := [{ response := respA, url := "http://a/", parsed := some ⟨none⟩ }],
    cursor := 0 }

/-- Witness for C9 at a concrete one-page browser. -/
theorem reparse_load_html_only_overwrite_parsed_witness :
    load_html bOne "<p>" parseNoTag = .ok bOneLoaded ∧
    bOneLoaded.cursor = bOne.cursor ∧
    bOneLoaded.states.length = bOne.states.length := by
  refine ⟨by decide, ?_⟩
  have h := (reparse_load_html_only_overwrite_parsed bOne "<p>" false id
    parseNoTag).1 bOneLoaded (by decide)
  exact ⟨h.1, h.2.2.2.1⟩

/-- A nonempty left part keeps a string append nonempty. -/
theorem append_left_ne_empty (s t : String) (h : s ≠ "") : s ++ t ≠ "" := by
  intro hc
  apply h
  have hd := congrArg String.data hc
  rw [String.data_append] at hd
  have hs0 : s.data = [] := by
    cases hs : s.data
    · rfl
    · rw [hs] at hd
      simp at hd
  cases s
  simp_all

/-- Case split on an `ite` of two nonempty strings. -/
theorem ite_ne_empty (c : Prop) [Decidable c] (x y : String)
    (hx : x ≠ "") (hy : y ≠ "") : (if c then x else y) ≠ "" := by
  split
  · exact hx
  · exact hy

/-- `urlunsplit` never returns the empty string when the scheme is
nonempty. -/
theorem urlunsplit_ne_empty (scheme netloc path query fragment : String)
    (h : scheme ≠ "") : urlunsplit scheme netloc path query fragment ≠ "" := by
  have hu2 : ∀ u1 : String,
      (if scheme ≠ "" then scheme ++ ":" ++ u1 else u1) ≠ "" := by
    intro u1
    rw [if_pos h]
    exact append_left_ne_empty _ _ (append_left_ne_empty _ _ h)
  unfold urlunsplit
  dsimp only
  apply ite_ne_empty
  · apply append_left_ne_empty
    apply append_left_ne_empty
    apply ite_ne_empty
    · exact append_left_ne_empty _ _ (append_left_ne_empty _ _ (hu2 _))
    · exact hu2 _
  · apply ite_ne_empty
    · exact append_left_ne_empty _ _ (append_left_ne_empty _ _ (hu2 _))
    · exact hu2 _

/-- `urlunparse` never returns the empty string when the scheme is
nonempty. -/
theorem urlunparse_ne_empty (p : ParsedUrl) (h : p.scheme ≠ "") :
    urlunparse p ≠ "" := by
  unfold urlunparse
  exact urlunsplit_ne_empty _ _ _ _ _ h

/-- `urljoin` with an empty reference returns the base. -/
theorem urljoin_empty_ref (base : String) (h : base ≠ "") :
    urljoin base "" = base := by
  unfold urljoin
  rw [if_neg h, if_pos rfl]

/-- With an empty default, `urlparse` reports exactly the scheme found by
`urlsplit`. -/
theorem urlparseD_scheme_empty_default (url : String) :
    (urlparseD url "").scheme = (urlsplitNoDefault url).scheme := by
  unfold urlparseD
  dsimp only
  split
  · next hs => exact hs.symm
  · rfl

/-- The default scheme is irrelevant when the URL carries its own scheme. -/
theorem urlparseD_default_irrelevant (url d : String)
    (h : (urlsplitNoDefault url).scheme ≠ "") :
    urlparseD url d = urlparseD url "" := by
  unfold urlparseD
  dsimp only
  rw [if_neg h, if_neg h]

/-- `urljoin` from a base that carries a scheme never produces the empty
string. -/
theorem urljoin_ne_empty (base url : String) (hb : base ≠ "")
    (hbs : (urlparseD base "").scheme ≠ "") : urljoin base url ≠ "" := by
  by_cases hu : url = ""
  · rw [hu, urljoin_empty_ref base hb]
    exact hb
  · unfold urljoin
    rw [if_neg hb, if_neg hu]
    dsimp only
    by_cases h1 :
        (urlparseD url (urlparseD base "").scheme).scheme ≠ (urlparseD base "").scheme
        ∨ (urlparseD url (urlparseD base "").scheme).scheme ∉ usesRelative
    · rw [if_pos h1]
      exact hu
    · rw [if_neg h1]
      push_neg at h1
      obtain ⟨hscheq, -⟩ := h1
      have hps : (urlparseD url (urlparseD base "").scheme).scheme ≠ "" := by
        rw [hscheq]
        exact hbs
      split
      · exact urlunparse_ne_empty _ hps
      · split
        · exact urlunparse_ne_empty _ hps
        · exact urlunparse_ne_empty _ hps

/-- An absolute reference (a URL with its own scheme that uses a network
location, a nonempty netloc, and a canonical parse/unparse round trip) is
returned as-is by `urljoin`. -/
theorem urljoin_absolute (base url : String) (hb : base ≠ "") (hu : url ≠ "")
    (haps : (urlparseD url "").scheme ≠ "")
    (hun : (urlparseD url "").scheme ∈ usesNetloc)
    (hnl : (urlparseD url "").netloc ≠ "")
    (hrt : urlunparse (urlparseD url "") = url) :
    urljoin base url = url := by
  have hcore : (urlsplitNoDefault url).scheme ≠ "" := by
    intro hc
    apply haps
    rw [urlparseD_scheme_empty_default, hc]
  have hdef : urlparseD url (urlparseD base "").scheme = urlparseD url "" :=
    urlparseD_default_irrelevant url _ hcore
  unfold urljoin
  rw [if_neg hb, if_neg hu]
  dsimp only
  rw [hdef]
  by_cases h1 : (urlparseD url "").scheme ≠ (urlparseD base "").scheme
      ∨ (urlparseD url "").scheme ∉ usesRelative
  · rw [if_pos h1]
  · rw [if_neg h1, if_pos ⟨hun, hnl⟩]
    exact hrt

/-- C7: `submit_form` resolves its request target from the form's action as
`self._build_url(form.action) or self.url`, i.e.
`urljoin(self.url, action) or self.url`: an empty action resolves to the
current page URL; every action resolves against the current page URL by the
standard URI-join rules; and a well-formed absolute action is used
as-is. -/
theorem submit_form_target_resolution (b : Browser) (st : RoboState)
    (action : String) (hst : getState b = .ok st) (hu : st.url ≠ "")
    (hbs : (urlparseD st.url "").scheme ≠ "") :
    (action = "" → submitFormTarget b action = .ok st.url) ∧
    submitFormTarget b action = .ok (urljoin st.url action) ∧
    ((urlparseD action "").scheme ≠ "" →
     (urlparseD action "").scheme ∈ usesNetloc →
     (urlparseD action "").netloc ≠ "" →
     urlunparse (urlparseD action "") = action →
     action ≠ "" →
     submitFormTarget b action = .ok action) := by
  have htgt : submitFormTarget b action
      = .ok (pyOr (urljoin st.url action) st.url) := by
    unfold submitFormTarget
    rw [hst]
    rfl
  have hne : urljoin st.url action ≠ "" := urljoin_ne_empty st.url action hu hbs
  have hmain : submitFormTarget b action = .ok (urljoin st.url action) := by
    rw [htgt]
    unfold pyOr
    rw [if_neg hne]
  refine ⟨?_, hmain, ?_⟩
  · intro ha
    rw [hmain, ha, urljoin_empty_ref st.url hu]
  · intro h1 h2 h3 h4 h5
    rw [hmain, urljoin_absolute st.url action hu h5 h1 h2 h3 h4]

/-- Witness for C7 at the concrete current page `http://a/` with an empty, a
relative, and an absolute action. -/
theorem submit_form_target_resolution_witness :
    getState bOne = .ok (mkState respA) ∧
    submitFormTarget bOne "" = .ok (mkState respA).url ∧
    submitFormTarget bOne "d/e" = .ok (urljoin (mkState respA).url "d/e") ∧
    submitFormTarget bOne "http://x/y" = .ok "http://x/y" := by
  refine ⟨by decide, ?_, ?_, ?_⟩
  · exact (submit_form_target_resolution bOne (mkState respA) "" (by decide)
      (by decide) (by decide)).1 rfl
  · exact (submit_form_target_resolution bOne (mkState respA) "d/e" (by decide)
      (by decide) (by decide)).2.1
  · exact (submit_form_target_resolution bOne (mkState respA) "http://x/y"
      (by decide) (by decide) (by decide)).2.2 (by decide) (by decide)
      (by decide) (by decide) (by decide)

end RoboDash
